import Mathlib

/-!
# `ImageFolderReader` (src/util/DatasetReader.h): a shallow embedding

The reader enumerates a frame source (directory or zip archive), checks the
optional depth source against it, loads `times.txt`, and serves raw images
through a reusable decode buffer.

Modelling conventions.

* `std::string` is a sequence of `char`: `StdString := List Char`, compared
  lexicographically as `std::string::operator<` does.
* A `float` or `double` value is a `FloatVal`: a rational, an infinity or NaN
  (the two zeros are one value).  `float` arithmetic is IEEE binary32 with
  round-to-nearest-even, evaluated in `float` precision (`FLT_EVAL_METHOD` 0):
  `roundF32` rounds the exact result, overflowing to an infinity.  A `double`
  is only stored and returned, never computed with, so no binary64 rounding
  occurs; widening a `float` to a `double` is exact.
* `int`/`long`/`size_t` quantities are `Int`/`Nat` without wrap-around: the
  development covers readers whose sizes and byte counts stay below `2^31`.
* The file system, libzip and `sscanf` are inputs: a directory is the list of
  names `readdir` yields, an archive is its table of contents with entry sizes,
  and `times.txt` is the list of per-line `sscanf` outcomes.
-/

namespace DatasetReader

/-- A `std::string`. -/
abbrev StdString := List Char

/-- One entry of a zip archive: its name and its uncompressed size in bytes. -/
structure ZipEntry where
  name : StdString
  size : Nat
  deriving DecidableEq, Repr

/-- A `zip_t*`: the table of contents, in archive order. -/
abbrev ZipArchive := List ZipEntry

/-! ## `float` and `double` values -/

/-- A `float` or `double` value: a finite number, an infinity or NaN.  The
zeros `+0` and `-0` compare equal and are both `fin 0`. -/
inductive FloatVal where
  | fin (q : ℚ)
  | posInf
  | negInf
  | nan
  deriving DecidableEq, Repr

/-- The comparison `x > 0`: false for NaN. -/
def FloatVal.gtZero : FloatVal → Bool
  | .fin q => decide (0 < q)
  | .posInf => true
  | _ => false

/-- The smallest positive `float`, `2^-149`. -/
def minSubnormal : ℚ := 1 / 713623846352979940529142984724747568191373312

/-- Search for the spacing of the `float`s around the magnitude `a`: starting
from `2^-149`, the spacing doubles until `a < 2^24 * u`. -/
def ulpSearch (a : ℚ) : Nat → ℚ → ℚ
  | 0, u => u
  | fuel + 1, u => if a < 16777216 * u then u else ulpSearch a fuel (2 * u)

/-- Spacing of the `float`s around the magnitude `a`: `2^-149` below `2^-125`,
`2^(e-23)` on `[2^e, 2^(e+1))`, at most `2^104`. -/
def ulp32 (a : ℚ) : ℚ := ulpSearch a 253 minSubnormal

/-- Nearest natural number to `x >= 0`, a tie going to the even one. -/
def roundHalfEven (x : ℚ) : ℕ :=
  let f := ⌊x⌋₊
  if x - f < 1 / 2 then f
  else if 1 / 2 < x - f then f + 1
  else if f % 2 = 0 then f else f + 1

/-- The `float` nearest to the exact value `q` (ties to even); a magnitude that
rounds to `2^128` or more gives an infinity. -/
def roundF32 (q : ℚ) : FloatVal :=
  let a := if q < 0 then -q else q
  let m := (roundHalfEven (a / ulp32 a) : ℚ) * ulp32 a
  if 340282366920938463463374607431768211456 ≤ m then (if q < 0 then .negInf else .posInf)
  else .fin (if q < 0 then -m else m)

/-- Conversion of a value to `float`. -/
def toF32 : FloatVal → FloatVal
  | .fin q => roundF32 q
  | x => x

/-- The `float` sum `a + b`. -/
def addF32 : FloatVal → FloatVal → FloatVal
  | .fin a, .fin b => roundF32 (a + b)
  | .nan, _ => .nan
  | _, .nan => .nan
  | .posInf, .negInf => .nan
  | .negInf, .posInf => .nan
  | .posInf, _ => .posInf
  | _, .posInf => .posInf
  | .negInf, _ => .negInf
  | _, .negInf => .negInf

/-- The `float` product `a * b`. -/
def mulF32 : FloatVal → FloatVal → FloatVal
  | .fin a, .fin b => roundF32 (a * b)
  | .nan, _ => .nan
  | _, .nan => .nan
  | .fin a, .posInf => if a = 0 then .nan else if 0 < a then .posInf else .negInf
  | .fin a, .negInf => if a = 0 then .nan else if 0 < a then .negInf else .posInf
  | .posInf, .fin b => if b = 0 then .nan else if 0 < b then .posInf else .negInf
  | .negInf, .fin b => if b = 0 then .nan else if 0 < b then .negInf else .posInf
  | .posInf, .posInf => .posInf
  | .negInf, .negInf => .posInf
  | .posInf, .negInf => .negInf
  | .negInf, .posInf => .negInf

/-- The `float` quotient `a / b`; a zero divisor counts as `+0`. -/
def divF32 : FloatVal → FloatVal → FloatVal
  | .fin a, .fin b =>
    if b = 0 then (if a = 0 then .nan else if 0 < a then .posInf else .negInf)
    else roundF32 (a / b)
  | .nan, _ => .nan
  | _, .nan => .nan
  | .fin _, _ => .fin 0
  | .posInf, .fin b => if 0 ≤ b then .posInf else .negInf
  | .negInf, .fin b => if 0 ≤ b then .negInf else .posInf
  | _, _ => .nan

/-- The literal `0.1f`: the `float` nearest to one tenth,
`13421773/134217728`. -/
def tenthF : FloatVal := roundF32 (1 / 10)

/-- Result of the two `sscanf` attempts made on one line of `times.txt`:
`"%d %lf %f"` matched three fields, or only `"%d %lf"` matched, or neither.
`stamp` is the `double` that `%lf` stores; `exposure` is the number denoted by
the text that `%f` matches, stored as the nearest `float`. -/
inductive ScanLine where
  | three (id : Int) (stamp : FloatVal) (exposure : FloatVal)
  | two (id : Int) (stamp : FloatVal)
  | noMatch
  deriving DecidableEq, Repr

/-- The data members of `class ImageFolderReader` that the modelled methods
touch.  `databuffer`/`databufferDepth` hold the capacity (in bytes) of the
allocated buffer, `none` being the null pointer. -/
structure ImageFolderReader where
  files : List StdString
  depth_files : List StdString
  timestamps : List FloatVal
  exposures : List FloatVal
  widthOrg : Nat
  heightOrg : Nat
  hasDepth : Bool
  isZipped : Bool
  isDepthZipped : Bool
  ziparchive : ZipArchive
  databuffer : Option Nat
  ziparchiveDepth : ZipArchive
  databufferDepth : Option Nat
  deriving DecidableEq, Repr

/-! ## `getNumImages`, `getTimestamp` -/

/-- Method `int getNumImages()`: `return files.size();` -/
def getNumImages (r : ImageFolderReader) : Int := r.files.length

/-- Method `double getTimestamp(int id)`:
```
if(timestamps.size()==0) return id*0.1f;
if(id >= (int)timestamps.size()) return 0;
if(id < 0) return 0;
return timestamps[id];
```
In `id*0.1f` the `int` is converted to `float` and the product is a `float`
product, widened to `double` on return. -/
def getTimestamp (r : ImageFolderReader) (id : Int) : FloatVal :=
  if r.timestamps.length = 0 then mulF32 (roundF32 (id : ℚ)) tenthF
  else if id ≥ (r.timestamps.length : Int) then .fin 0
  else if id < 0 then .fin 0
  else r.timestamps.getD id.toNat (.fin 0)

/-! ## `loadTimestamps` -/

/-- Body of the reading loop: a three-field match pushes `stamp` and
`exposure`; a two-field match pushes `stamp` and the initial `exposure = 0`;
any other line pushes nothing. -/
def pushLine (st : List FloatVal × List FloatVal) (line : ScanLine) :
    List FloatVal × List FloatVal :=
  match line with
  | .three _ stamp exposure => (st.1 ++ [stamp], st.2 ++ [toF32 exposure])
  | .two _ stamp => (st.1 ++ [stamp], st.2 ++ [.fin 0])
  | .noMatch => st

/-- The `while(!tr.eof() && tr.good())` loop over the lines of `times.txt`,
starting from the current `(timestamps, exposures)`. -/
def readLines (st : List FloatVal × List FloatVal) (lines : List ScanLine) :
    List FloatVal × List FloatVal :=
  lines.foldl pushLine st

/-- The `// fix!` block for index `i`, executed in place on `exposures`:
```
if(exposures[i] == 0) {
  float sum=0,num=0;
  if(i>0 && exposures[i-1] > 0) {sum += exposures[i-1]; num++;}
  if(i+1<(int)exposures.size() && exposures[i+1] > 0) {sum += exposures[i+1]; num++;}
  if(num>0) exposures[i] = sum/num;
}
``` -/
def fixExposure (exposures : List FloatVal) (i : Nat) : List FloatVal :=
  if exposures.getD i (.fin 0) = .fin 0 then
    let sum : FloatVal := .fin 0
    let num : FloatVal := .fin 0
    let left : Bool := decide (0 < i ∧ (exposures.getD (i - 1) (.fin 0)).gtZero = true)
    let sum := if left then addF32 sum (exposures.getD (i - 1) (.fin 0)) else sum
    let num := if left then addF32 num (.fin 1) else num
    let right : Bool :=
      decide (i + 1 < exposures.length ∧ (exposures.getD (i + 1) (.fin 0)).gtZero = true)
    let sum := if right then addF32 sum (exposures.getD (i + 1) (.fin 0)) else sum
    let num := if right then addF32 num (.fin 1) else num
    if num.gtZero = true then exposures.set i (divF32 sum num) else exposures
  else exposures

/-- One iteration of `for(int i=0;i<(int)exposures.size();i++)`: the fix, then
`if(exposures[i] == 0) exposuresGood=false;`. -/
def repairBody (st : List FloatVal × Bool) (i : Nat) : List FloatVal × Bool :=
  let exposures := fixExposure st.1 i
  (exposures, if exposures.getD i (.fin 0) = .fin 0 then false else st.2)

/-- The first `k` iterations of the repair loop. -/
def repairUpTo (k : Nat) (exposures : List FloatVal) (exposuresGood : Bool) :
    List FloatVal × Bool :=
  (List.range k).foldl repairBody (exposures, exposuresGood)

/-- The whole repair loop, `i = 0 .. exposures.size()-1`. -/
def repairLoop (exposures : List FloatVal) (exposuresGood : Bool) : List FloatVal × Bool :=
  repairUpTo exposures.length exposures exposuresGood

/-- Method `void loadTimestamps()`, given the `sscanf` outcomes of the lines of
`times.txt` (no lines when the file cannot be opened). -/
def loadTimestamps (r : ImageFolderReader) (lines : List ScanLine) : ImageFolderReader :=
  let parsed := readLines (r.timestamps, r.exposures) lines
  let timestamps := parsed.1
  let exposures := parsed.2
  let exposuresGood : Bool := decide ((exposures.length : Int) = getNumImages r)
  let repaired := repairLoop exposures exposuresGood
  let exposures := repaired.1
  let exposuresGood := repaired.2
  -- if((int)getNumImages() != (int)timestamps.size()) { exposures.clear(); timestamps.clear(); }
  let mismatch : Bool := decide (getNumImages r ≠ (timestamps.length : Int))
  let exposures := if mismatch then [] else exposures
  let timestamps := if mismatch then [] else timestamps
  -- if((int)getNumImages() != (int)exposures.size() || !exposuresGood) exposures.clear();
  let exposures :=
    if getNumImages r ≠ (exposures.length : Int) ∨ exposuresGood = false then [] else exposures
  { r with timestamps := timestamps, exposures := exposures }

/-- The timestamps pushed by the reading loop when it starts from empty
vectors, as it does in the constructor. -/
def parsedStamps (lines : List ScanLine) : List FloatVal := (readLines ([], []) lines).1

/-- The exposures pushed by the reading loop when it starts from empty
vectors. -/
def parsedExposures (lines : List ScanLine) : List FloatVal := (readLines ([], []) lines).2

/-! ## Source enumeration: `getdir` and the zip branch of the constructor -/

/-- Call `std::sort(files.begin(), files.end())` on strings: the ascending
arrangement under `operator<`, which is unique because the order is total. -/
def stdSort (files : List StdString) : List StdString :=
  files.insertionSort (· ≤ ·)

/-- The part of `getdir` that follows the directory scan, shared verbatim by
both platform branches:
```
std::sort(files.begin(), files.end());
if(dir.at( dir.length() - 1 ) != '/') dir = dir+"/";
for(i...) if(files[i].at(0) != '/') files[i] = dir + files[i];
return files.size();
```
`none` is the `std::out_of_range` thrown by `at` on an empty string. -/
def getdirTail (dir : StdString) (files : List StdString) : Option (Int × List StdString) :=
  let files := stdSort files
  match dir.getLast? with
  | none => none
  | some last =>
    let dir := if last ≠ '/' then dir ++ "/".toList else dir
    if files.any (fun f => f.isEmpty) then none
    else
      let files := files.map (fun f => if f.head? ≠ some '/' then dir ++ f else f)
      some ((files.length : Int), files)

/-- Function `getdir`, POSIX branch.  `listing` is what `opendir`/`readdir` deliver:
`none` when `opendir` fails (return `-1`, `files` untouched), otherwise the
`d_name`s in directory order.  The result is the return value and `files`. -/
def getdir (dir : StdString) (listing : Option (List StdString)) (files : List StdString) :
    Option (Int × List StdString) :=
  match listing with
  | none => some (-1, files)
  | some names =>
    let files := files ++ names.filter (fun name => name ≠ ".".toList ∧ name ≠ "..".toList)
    getdirTail dir files

/-- Function `getdir`, `_DSO_ON_WIN` branch.  `listing` is `none` when `is_directory(p)`
is false (return `0`), otherwise the `filename()` of every directory entry; an
entry is kept when `has_filename()`, i.e. when that name is not empty. -/
def getdirWin (dir : StdString) (listing : Option (List StdString)) (files : List StdString) :
    Option (Int × List StdString) :=
  match listing with
  | none => some (0, files)
  | some names =>
    let files := files ++ names.filter (fun name => name ≠ [])
    getdirTail dir files

/-- The zip branch of the constructor, after `files.clear()`:
```
for k: nstr = zip_get_name(k);
  if(nstr == "." || nstr == "..") continue;
  if (nstr.back() == '/') record_numEntries--; else files.push_back(name);
std::sort(files.begin(), files.end());
```
On an empty name `back()` is undefined; here such a name is pushed. -/
def zipEnumerate (archive : ZipArchive) : List StdString :=
  let step := fun (files : List StdString) (e : ZipEntry) =>
    if e.name = ".".toList ∨ e.name = "..".toList then files
    else if e.name.getLast? = some '/' then files
    else files ++ [e.name]
  stdSort (archive.foldl step [])

/-- The directory path as `getdir` prepends it: `dir`, with `/` appended unless
it already ends in one. -/
def withSlash (dir : StdString) : StdString :=
  if dir.getLast? ≠ some '/' then dir ++ "/".toList else dir

/-! ## Construction -/

/-- The ways construction fails: `exit(1)` after a `zip_open` error or after
the count mismatch, or the `std::out_of_range` escaping from `getdir`. -/
inductive CtorError where
  | archiveOpen (ziperror : Int)
  | countMismatch
  | outOfRange
  deriving DecidableEq, Repr

/-- What the constructor reads from its surroundings: the result of `zip_open`
on a path (an error code or the archive), the directory scan of a path, the
original image size reported by the undistorter, and the scanned lines of
`times.txt`. -/
structure World where
  zip_open : StdString → Except Int ZipArchive
  readdir : StdString → Option (List StdString)
  originalSize : Nat × Nat
  timesLines : List ScanLine

/-- Test `path.length()>4 && path.substr(path.length()-4) == ".zip"`. -/
def endsInZip (path : StdString) : Bool :=
  decide (path.length > 4) && decide (path.drop (path.length - 4) = ".zip".toList)

/-- The reader once both sources are enumerated: `hasDepth = false`,
`databuffer = databufferDepth = 0`, the flags and lists as computed so far, no
metadata and no image size yet. -/
def enumeratedReader (isZipped isDepthZipped : Bool) (ziparchive ziparchiveDepth : ZipArchive)
    (files depth_files : List StdString) : ImageFolderReader :=
  { files := files, depth_files := depth_files, timestamps := [], exposures := [],
    widthOrg := 0, heightOrg := 0, hasDepth := false, isZipped := isZipped,
    isDepthZipped := isDepthZipped, ziparchive := ziparchive, databuffer := none,
    ziparchiveDepth := ziparchiveDepth, databufferDepth := none }

/-- The constructor from the depth-count check onwards (the statements after
both sources have been enumerated):
```
if(depth_files.size()>0) {
  if (files.size() != depth_files.size()) { printf("ERROR: ..."); exit(1); }
  else hasDepth = true;
}
widthOrg = ...; heightOrg = ...;
loadTimestamps();
``` -/
def finishConstruction (w : World) (r : ImageFolderReader) : Except CtorError ImageFolderReader :=
  if r.depth_files.length > 0 ∧ r.files.length ≠ r.depth_files.length then
    .error .countMismatch
  else
    let r := if r.depth_files.length > 0 then { r with hasDepth := true } else r
    let r := { r with widthOrg := w.originalSize.1, heightOrg := w.originalSize.2 }
    .ok (loadTimestamps r w.timesLines)

/-- Constructor `ImageFolderReader(path, depth_path, ...)` with `HAS_ZIPLIB`, directory
sources read through the POSIX `getdir`. -/
def construct (w : World) (path depth_path : StdString) : Except CtorError ImageFolderReader :=
  let isZipped := endsInZip path
  let isDepthZipped := endsInZip depth_path
  let main : Except CtorError (ZipArchive × List StdString) :=
    if isZipped then
      match w.zip_open path with
      | .error e => .error (.archiveOpen e)
      | .ok a => .ok (a, zipEnumerate a)
    else
      match getdir path (w.readdir path) [] with
      | none => .error .outOfRange
      | some res => .ok ([], res.2)
  let depth : Except CtorError (ZipArchive × List StdString) :=
    if isDepthZipped then
      match w.zip_open depth_path with
      | .error e => .error (.archiveOpen e)
      | .ok a => .ok (a, zipEnumerate a)
    else
      match getdir depth_path (w.readdir depth_path) [] with
      | none => .error .outOfRange
      | some res => .ok ([], res.2)
  match main with
  | .error e => .error e
  | .ok (ziparchive, files) =>
    match depth with
    | .error e => .error e
    | .ok (ziparchiveDepth, depth_files) =>
      finishConstruction w
        (enumeratedReader isZipped isDepthZipped ziparchive ziparchiveDepth files depth_files)

/-! ## Reading a raw image or depth map -/

/-- Call `zip_fopen(archive, name, 0)`: the entry of that name, or `NULL`. -/
def zip_fopen (archive : ZipArchive) (name : StdString) : Option ZipEntry :=
  archive.find? (fun e => decide (e.name = name))

/-- Call `zip_fread(fle, buf, toread)`: the number of bytes delivered, which is the
whole entry or `toread`, whichever is smaller; `-1` on a `NULL` file. -/
def zip_fread (fle : Option ZipEntry) (toread : Nat) : Int :=
  match fle with
  | none => -1
  | some e => (min e.size toread : Nat)

/-- One `zip_fread` call as seen from the buffer: which entry was opened, the
capacity of the destination buffer, and the byte count requested. -/
structure FreadCall where
  entry : Option StdString
  capacity : Nat
  requested : Nat
  deriving DecidableEq, Repr

/-- How `getImageRaw_internal`/`getDepth_internal` end: an image file read by
path, a buffer handed to `readStreamBW_8U` (filled from `entry`, with
`readbytes` as the byte count), or `exit(1)` after "buffer still to small". -/
inductive RawOutcome where
  | readImage (path : StdString)
  | readStream (entry : Option StdString) (readbytes : Int)
  | abort
  deriving DecidableEq, Repr

/-- What a call leaves behind: the outcome, the reader (its buffer may have
been allocated or replaced) and the `zip_fread` calls made, in order. -/
structure RawCall where
  outcome : RawOutcome
  reader : ImageFolderReader
  freads : List FreadCall
  deriving DecidableEq, Repr

/-- Method `getImageRaw_internal(id, 0)`.  A valid `id` is the caller's duty; an index
past the end reads as the empty string. -/
def getImageRaw_internal (r : ImageFolderReader) (id : Nat) : RawCall :=
  if !r.isZipped then
    { outcome := .readImage (r.files.getD id []), reader := r, freads := [] }
  else
    let P := r.widthOrg * r.heightOrg
    -- if(databuffer==0) databuffer = new char[widthOrg*heightOrg*6+10000];
    let databuffer : Nat := match r.databuffer with
      | none => P * 6 + 10000
      | some cap => cap
    let fle := zip_fopen r.ziparchive (r.files.getD id [])
    let readbytes := zip_fread fle (P * 6 + 10000)
    let call1 : FreadCall :=
      { entry := fle.map (·.name), capacity := databuffer, requested := P * 6 + 10000 }
    if readbytes > ((P * 6 : Nat) : Int) then
      -- delete[] databuffer; databuffer = new char[(long)widthOrg*heightOrg*30];
      let databuffer : Nat := P * 30
      let fle := zip_fopen r.ziparchive (r.files.getD id [])
      let readbytes := zip_fread fle (P * 30 + 10000)
      let call2 : FreadCall :=
        { entry := fle.map (·.name), capacity := databuffer, requested := P * 30 + 10000 }
      let r := { r with databuffer := some databuffer }
      if readbytes > ((P * 30 : Nat) : Int) then
        { outcome := .abort, reader := r, freads := [call1, call2] }
      else
        { outcome := .readStream (fle.map (·.name)) readbytes, reader := r,
          freads := [call1, call2] }
    else
      { outcome := .readStream (fle.map (·.name)) readbytes,
        reader := { r with databuffer := some databuffer }, freads := [call1] }

/-- Method `getDepth_internal(id, 0)`, the copy of `getImageRaw_internal` for the
depth source; its retry reopens by `files[id]`, as the source does. -/
def getDepth_internal (r : ImageFolderReader) (id : Nat) : RawCall :=
  if !r.isDepthZipped then
    { outcome := .readImage (r.depth_files.getD id []), reader := r, freads := [] }
  else
    let P := r.widthOrg * r.heightOrg
    -- if (databufferDepth == 0) databufferDepth = new char[widthOrg * heightOrg * 6 + 10000];
    let databufferDepth : Nat := match r.databufferDepth with
      | none => P * 6 + 10000
      | some cap => cap
    let fle := zip_fopen r.ziparchiveDepth (r.depth_files.getD id [])
    let readbytes := zip_fread fle (P * 6 + 10000)
    let call1 : FreadCall :=
      { entry := fle.map (·.name), capacity := databufferDepth, requested := P * 6 + 10000 }
    if readbytes > ((P * 6 : Nat) : Int) then
      -- delete[] databufferDepth; databufferDepth = new char[(long)widthOrg * heightOrg * 30];
      let databufferDepth : Nat := P * 30
      -- fle = zip_fopen(ziparchiveDepth, files[id].c_str(), 0);
      let fle := zip_fopen r.ziparchiveDepth (r.files.getD id [])
      let readbytes := zip_fread fle (P * 30 + 10000)
      let call2 : FreadCall :=
        { entry := fle.map (·.name), capacity := databufferDepth, requested := P * 30 + 10000 }
      let r := { r with databufferDepth := some databufferDepth }
      if readbytes > ((P * 30 : Nat) : Int) then
        { outcome := .abort, reader := r, freads := [call1, call2] }
      else
        { outcome := .readStream (fle.map (·.name)) readbytes, reader := r,
          freads := [call1, call2] }
    else
      { outcome := .readStream (fle.map (·.name)) readbytes,
        reader := { r with databufferDepth := some databufferDepth }, freads := [call1] }

/-- The reader in which the main-side members `(isZipped, ziparchive, files,
databuffer)` hold what the depth-side members `(isDepthZipped,
ziparchiveDepth, depth_files, databufferDepth)` hold. -/
def depthAsMain (r : ImageFolderReader) : ImageFolderReader :=
  { r with isZipped := r.isDepthZipped, ziparchive := r.ziparchiveDepth,
           files := r.depth_files, databuffer := r.databufferDepth }

/-- Every `zip_fread` of the trace stays inside the buffer it writes to. -/
def withinCapacity (calls : List FreadCall) : Prop :=
  ∀ c ∈ calls, c.requested ≤ c.capacity

instance (calls : List FreadCall) : Decidable (withinCapacity calls) := by
  unfold withinCapacity; infer_instance

/-! ## Repair values, for comparison with the loop -/

/-- The `float` accumulation `sum = 0; sum += x` over the contributors, in
order. -/
def floatSum (l : List FloatVal) : FloatVal := l.foldl addF32 (.fin 0)

/-- The `float` counter `num = 0; num++` over the contributors. -/
def floatCount (l : List FloatVal) : FloatVal := l.foldl (fun n _ => addF32 n (.fin 1)) (.fin 0)

/-- The `float` mean `sum/num` of a list of contributors. -/
def floatMean (l : List FloatVal) : FloatVal := divF32 (floatSum l) (floatCount l)

/-- Contributors to the repair of index `i` as the loop takes them: the entry
at `i-1` of `current` (the vector as it stands after the loop, so already
repaired) and the entry at `i+1` of `parsed`, each when it exists and is
`> 0`. -/
def loopContributors (current parsed : List FloatVal) (i : Nat) : List FloatVal :=
  (if 0 < i ∧ (current.getD (i - 1) (.fin 0)).gtZero = true
    then [current.getD (i - 1) (.fin 0)] else []) ++
  (if i + 1 < parsed.length ∧ (parsed.getD (i + 1) (.fin 0)).gtZero = true
    then [parsed.getD (i + 1) (.fin 0)] else [])

/-- Contributors to the repair of index `i` in the words of the description:
those of the parsed exposures at `i-1` and `i+1` that are non-zero. -/
def parsedContributors (parsed : List FloatVal) (i : Nat) : List FloatVal :=
  (if 0 < i ∧ parsed.getD (i - 1) (.fin 0) ≠ .fin 0
    then [parsed.getD (i - 1) (.fin 0)] else []) ++
  (if i + 1 < parsed.length ∧ parsed.getD (i + 1) (.fin 0) ≠ .fin 0
    then [parsed.getD (i + 1) (.fin 0)] else [])

/-- The value is `+inf` or a finite number not below `c`. -/
def FloatVal.AtLeast (c : ℚ) (x : FloatVal) : Prop :=
  x = .posInf ∨ ∃ m, x = .fin m ∧ c ≤ m

/-- A finite positive value is not below the smallest positive `float`. -/
def FloatVal.OnGrid (x : FloatVal) : Prop :=
  ∀ m, x = .fin m → 0 < m → minSubnormal ≤ m

/-! ## Concrete readers used below -/

/-- A directory reader over three frames. -/
def threeFrames : ImageFolderReader :=
  enumeratedReader false false [] []
    ["img/0.png".toList, "img/1.png".toList, "img/2.png".toList] []

/-- A directory reader over four frames. -/
def fourFrames : ImageFolderReader :=
  enumeratedReader false false [] []
    ["img/0.png".toList, "img/1.png".toList, "img/2.png".toList, "img/3.png".toList] []

/-- A 640x480 reader over one archive holding the single entry `0.png` of the
given size. -/
def vgaZipReader (size : Nat) (databuffer : Option Nat) : ImageFolderReader :=
  { enumeratedReader true false [⟨"0.png".toList, size⟩] [] ["0.png".toList] [] with
    widthOrg := 640, heightOrg := 480, databuffer := databuffer }

/-- Surroundings in which `img` is a directory with two images and `depth` a
directory with one depth map. -/
def twoImagesOneDepth : World :=
  { zip_open := fun _ => .error 9
    readdir := fun p =>
      if p = "img".toList then some [".".toList, "..".toList, "1.png".toList, "0.png".toList]
      else if p = "depth".toList then some [".".toList, "0.png".toList, "..".toList]
      else none
    originalSize := (640, 480)
    timesLines := [] }

/-- A 10x10 reader over one archive holding `0.png` (700 bytes, more than
`10*10*6`) and `1.png` (100 bytes). -/
def tinyZipReader : ImageFolderReader :=
  { enumeratedReader true false [⟨"0.png".toList, 700⟩, ⟨"1.png".toList, 100⟩] []
      ["0.png".toList, "1.png".toList] [] with
    widthOrg := 10, heightOrg := 10 }

/-- A 640x480 reader whose image archive holds `a`, `b` and whose depth
archive holds `b` (10 bytes) and `c` (1843201 bytes, one more than
`640*480*6`). -/
def depthZipReader : ImageFolderReader :=
  { enumeratedReader true true
      [⟨"a".toList, 5⟩, ⟨"b".toList, 5⟩] [⟨"b".toList, 10⟩, ⟨"c".toList, 1843201⟩]
      ["a".toList, "b".toList] ["b".toList, "c".toList] with
    widthOrg := 640, heightOrg := 480, hasDepth := true }

/-! ## Frame lemmas for `loadTimestamps` -/

theorem loadTimestamps_files (r : ImageFolderReader) (lines : List ScanLine) :
    (loadTimestamps r lines).files = r.files := rfl

theorem getNumImages_loadTimestamps (r : ImageFolderReader) (lines : List ScanLine) :
    getNumImages (loadTimestamps r lines) = getNumImages r := rfl

theorem loadTimestamps_timestamps (r : ImageFolderReader) (lines : List ScanLine) :
    (loadTimestamps r lines).timestamps =
      if (readLines (r.timestamps, r.exposures) lines).1.length = r.files.length
      then (readLines (r.timestamps, r.exposures) lines).1 else [] := by
  simp only [loadTimestamps, getNumImages]
  by_cases h : (readLines (r.timestamps, r.exposures) lines).1.length = r.files.length
  · simp [h]
  · have h' : ¬ r.files.length = (readLines (r.timestamps, r.exposures) lines).1.length :=
      fun e => h e.symm
    simp [h, h']

theorem loadTimestamps_timestamps_length (r : ImageFolderReader) (lines : List ScanLine) :
    (loadTimestamps r lines).timestamps = [] ∨
      (loadTimestamps r lines).timestamps.length = r.files.length := by
  rw [loadTimestamps_timestamps]
  split
  · right; assumption
  · left; rfl

theorem loadTimestamps_exposures_of_mismatch (r : ImageFolderReader) (lines : List ScanLine)
    (h : (readLines (r.timestamps, r.exposures) lines).1.length ≠ r.files.length) :
    (loadTimestamps r lines).exposures = [] := by
  have h' : ¬ r.files.length = (readLines (r.timestamps, r.exposures) lines).1.length :=
    fun e => h e.symm
  simp only [loadTimestamps, getNumImages]
  simp [h']

/-! ## Values of the `float` operations used below -/

theorem tenthF_eq : tenthF = .fin (13421773 / 134217728) := by decide!

theorem neg_one_times_tenthF :
    mulF32 (roundF32 (-1)) tenthF = .fin (-(13421773 / 134217728)) := by decide!

theorem zero_times_tenthF : mulF32 (roundF32 0) tenthF = .fin 0 := by decide!

theorem one_times_tenthF : mulF32 (roundF32 1) tenthF = .fin (13421773 / 134217728) := by
  decide!

theorem addF32_zero_one : addF32 (.fin 0) (.fin 1) = .fin 1 := by decide!

theorem addF32_one_one : addF32 (.fin 1) (.fin 1) = .fin 2 := by decide!

/-! ## `getTimestamp` outside the index range -/

/-- C1 (as stated, refuted): a reader over three files whose `times.txt` is
absent has no timestamps, and there `getTimestamp(-1)` is the `float` product
`-1*0.1f = -13421773/134217728` and `getTimestamp(getNumImages())` is
`3*0.1f = 5033165/16777216`; neither is `0`. -/
theorem getTimestamp_out_of_range_unloaded :
    (loadTimestamps threeFrames []).timestamps = [] ∧
    getTimestamp (loadTimestamps threeFrames []) (-1) = .fin (-(13421773 / 134217728)) ∧
    getTimestamp (loadTimestamps threeFrames [])
      (getNumImages (loadTimestamps threeFrames [])) = .fin (5033165 / 16777216) ∧
    getTimestamp (loadTimestamps threeFrames []) (-1) ≠ .fin 0 ∧
    getTimestamp (loadTimestamps threeFrames [])
      (getNumImages (loadTimestamps threeFrames [])) ≠ .fin 0 := by
  decide!

/-- C1 (amended): after `loadTimestamps`, whatever the reader and the file,
`getTimestamp(-1)` and `getTimestamp(getNumImages())` return `0` when
timestamps are loaded; when none are, they return the `float` products
`-1*0.1f` (which is `-13421773/134217728`) and `getNumImages()*0.1f`. -/
theorem getTimestamp_out_of_range (r : ImageFolderReader) (lines : List ScanLine) :
    getTimestamp (loadTimestamps r lines) (-1) =
      (if (loadTimestamps r lines).timestamps = [] then .fin (-(13421773 / 134217728))
       else .fin 0) ∧
    getTimestamp (loadTimestamps r lines) (getNumImages (loadTimestamps r lines)) =
      (if (loadTimestamps r lines).timestamps = []
       then mulF32 (roundF32 (r.files.length : ℚ)) tenthF else .fin 0) := by
  rw [getNumImages_loadTimestamps]
  have hneg : mulF32 (roundF32 (((-1 : Int) : ℚ))) tenthF = .fin (-(13421773 / 134217728)) := by
    have e : (((-1 : Int) : ℚ)) = -1 := by norm_num
    rw [e]
    exact neg_one_times_tenthF
  rcases loadTimestamps_timestamps_length r lines with h | h
  · constructor
    · unfold getTimestamp
      rw [if_pos (by rw [h]; rfl), if_pos h]
      exact hneg
    · unfold getTimestamp
      rw [if_pos (by rw [h]; rfl), if_pos h]
      simp [getNumImages]
  · by_cases he : (loadTimestamps r lines).timestamps = []
    · constructor
      · unfold getTimestamp
        rw [if_pos (by rw [he]; rfl), if_pos he]
        exact hneg
      · unfold getTimestamp
        rw [if_pos (by rw [he]; rfl), if_pos he]
        simp [getNumImages]
    · have hlen : (loadTimestamps r lines).timestamps.length ≠ 0 := by
        simpa [List.length_eq_zero] using he
      constructor
      · unfold getTimestamp
        rw [if_neg hlen, if_neg he]
        have h1 : ¬ ((-1 : Int) ≥ ((loadTimestamps r lines).timestamps.length : Int)) := by
          omega
        rw [if_neg h1, if_pos (by decide)]
      · unfold getTimestamp
        rw [if_neg hlen, if_neg he]
        have h1 : getNumImages r ≥ ((loadTimestamps r lines).timestamps.length : Int) := by
          rw [h]; exact le_refl _
        rw [if_pos h1]

/-! ## Count mismatch between `times.txt` and the frame list -/

/-- C3 (as stated, refuted): with two parsed lines for three images both
vectors are emptied, but `getTimestamp(1)` is the `float` product
`1*0.1f = 13421773/134217728` (0.100000001490116...), which is neither one
tenth nor the `double` nearest to it. -/
theorem getTimestamp_fallback_is_float_product :
    (loadTimestamps threeFrames
      [.three 0 (.fin 0) (.fin 1), .three 1 (.fin (1 / 10)) (.fin 1)]).timestamps = [] ∧
    getTimestamp (loadTimestamps threeFrames
      [.three 0 (.fin 0) (.fin 1), .three 1 (.fin (1 / 10)) (.fin 1)]) 1
      = .fin (13421773 / 134217728) ∧
    getTimestamp (loadTimestamps threeFrames
      [.three 0 (.fin 0) (.fin 1), .three 1 (.fin (1 / 10)) (.fin 1)]) 1 ≠ .fin (1 / 10) ∧
    getTimestamp (loadTimestamps threeFrames
      [.three 0 (.fin 0) (.fin 1), .three 1 (.fin (1 / 10)) (.fin 1)]) 1
      ≠ .fin (3602879701896397 / 36028797018963968) := by
  decide!

/-- C3 (amended): when the number of lines parsed from `times.txt` differs from
`getNumImages()`, `loadTimestamps` (run by the constructor on empty vectors)
leaves `timestamps` and `exposures` empty, and `getTimestamp(id)` is the
`float` product `id * 0.1f` for every `0 <= id < getNumImages()`. -/
theorem loadTimestamps_count_mismatch (r : ImageFolderReader) (lines : List ScanLine)
    (ht : r.timestamps = []) (he : r.exposures = [])
    (hne : ((parsedStamps lines).length : Int) ≠ getNumImages r) :
    (loadTimestamps r lines).timestamps = [] ∧
    (loadTimestamps r lines).exposures = [] ∧
    ∀ id : Int, 0 ≤ id → id < getNumImages (loadTimestamps r lines) →
      getTimestamp (loadTimestamps r lines) id = mulF32 (roundF32 (id : ℚ)) tenthF := by
  have hne' : (readLines (r.timestamps, r.exposures) lines).1.length ≠ r.files.length := by
    intro h
    apply hne
    rw [ht, he] at h
    simp [parsedStamps, getNumImages, h]
  have h1 : (loadTimestamps r lines).timestamps = [] := by
    rw [loadTimestamps_timestamps, if_neg hne']
  refine ⟨h1, loadTimestamps_exposures_of_mismatch r lines hne', ?_⟩
  intro id _ _
  unfold getTimestamp
  rw [if_pos (by rw [h1]; rfl)]

/-- C3 (amended) at two parsed lines for three images: `getTimestamp(0)` is
`0` and `getTimestamp(1)` is `13421773/134217728`. -/
theorem loadTimestamps_count_mismatch_witness :
    (loadTimestamps threeFrames
      [.three 0 (.fin 0) (.fin 1), .three 1 (.fin (1 / 10)) (.fin 1)]).timestamps = [] ∧
    (loadTimestamps threeFrames
      [.three 0 (.fin 0) (.fin 1), .three 1 (.fin (1 / 10)) (.fin 1)]).exposures = [] ∧
    getTimestamp (loadTimestamps threeFrames
      [.three 0 (.fin 0) (.fin 1), .three 1 (.fin (1 / 10)) (.fin 1)]) 0 = .fin 0 ∧
    getTimestamp (loadTimestamps threeFrames
      [.three 0 (.fin 0) (.fin 1), .three 1 (.fin (1 / 10)) (.fin 1)]) 1
      = .fin (13421773 / 134217728) := by
  have h := loadTimestamps_count_mismatch threeFrames
    [.three 0 (.fin 0) (.fin 1), .three 1 (.fin (1 / 10)) (.fin 1)] rfl rfl (by decide)
  refine ⟨h.1, h.2.1, ?_, ?_⟩
  · rw [h.2.2 0 (by decide) (by decide)]
    have e : (((0 : Int) : ℚ)) = 0 := by norm_num
    rw [e]
    exact zero_times_tenthF
  · rw [h.2.2 1 (by decide) (by decide)]
    have e : (((1 : Int) : ℚ)) = 1 := by norm_num
    rw [e]
    exact one_times_tenthF

/-! ## Count parity of the main and depth sources -/

theorem loadTimestamps_depth_fields (r : ImageFolderReader) (lines : List ScanLine) :
    (loadTimestamps r lines).depth_files = r.depth_files ∧
    (loadTimestamps r lines).hasDepth = r.hasDepth := ⟨rfl, rfl⟩

/-- C6: with `files` and `depth_files` enumerated, the constructor ends in the
count-mismatch `exit(1)` when `depth_files` is non-empty and of another length
than `files`; in every other case it goes on to a reader over the same two
lists, whose `hasDepth` is `true` exactly when `depth_files` is non-empty. -/
theorem construction_count_parity (w : World) (isZipped isDepthZipped : Bool)
    (ziparchive ziparchiveDepth : ZipArchive) (files depth_files : List StdString) :
    (depth_files ≠ [] ∧ depth_files.length ≠ files.length →
      finishConstruction w
        (enumeratedReader isZipped isDepthZipped ziparchive ziparchiveDepth files depth_files)
        = .error .countMismatch) ∧
    (¬ (depth_files ≠ [] ∧ depth_files.length ≠ files.length) →
      ∃ r, finishConstruction w
        (enumeratedReader isZipped isDepthZipped ziparchive ziparchiveDepth files depth_files)
        = .ok r ∧ r.files = files ∧ r.depth_files = depth_files ∧
        (r.hasDepth = true ↔ depth_files ≠ [])) := by
  constructor
  · rintro ⟨hne, hlen⟩
    have hpos : 0 < depth_files.length := List.length_pos.mpr hne
    have hlen' : files.length ≠ depth_files.length := fun e => hlen e.symm
    simp [finishConstruction, enumeratedReader, hpos, hlen']
  · intro h
    by_cases hnil : depth_files = []
    · subst hnil
      simp only [finishConstruction, enumeratedReader, List.length_nil, gt_iff_lt,
        lt_self_iff_false, false_and, if_false]
      exact ⟨_, rfl, by simp [loadTimestamps_files, loadTimestamps_depth_fields]⟩
    · have hpos : 0 < depth_files.length := List.length_pos.mpr hnil
      have hlen : files.length = depth_files.length := by
        by_contra hc
        exact h ⟨hnil, fun e => hc e.symm⟩
      simp only [finishConstruction, enumeratedReader, gt_iff_lt, hpos, hlen, ne_eq,
        not_true_eq_false, and_false, if_false, if_true]
      exact ⟨_, rfl, by simp [loadTimestamps_files, loadTimestamps_depth_fields, hnil]⟩

/-- The whole constructor on two images and one depth map ends in the count
mismatch; without a depth path it delivers a reader over the two sorted image
paths, `hasDepth` unset. -/
theorem construct_two_images_one_depth :
    construct twoImagesOneDepth "img".toList "depth".toList = .error .countMismatch ∧
    (construct twoImagesOneDepth "img".toList []).toOption.map
        (fun r => (r.files, r.depth_files, r.hasDepth))
      = some (["img/0.png".toList, "img/1.png".toList], [], false) := by
  constructor
  · rfl
  · decide

/-! ## The archive read and its buffer -/

/-- C2: in the zip branch of `getImageRaw_internal`, with
`P = widthOrg*heightOrg` (positive or not) and the opened entry of size `s`: if
`6P+10000 < s <= 30P` the read escalates once (two `zip_fread` calls, buffer
replaced by one of `30P` bytes) and hands exactly `s` bytes of that entry to
the decoder; if `s > 30P` the call aborts. -/
theorem getImageRaw_escalation (r : ImageFolderReader) (id : Nat) (e : ZipEntry)
    (hz : r.isZipped = true)
    (hopen : zip_fopen r.ziparchive (r.files.getD id []) = some e) :
    (r.widthOrg * r.heightOrg * 6 + 10000 < e.size →
      e.size ≤ r.widthOrg * r.heightOrg * 30 →
        (getImageRaw_internal r id).outcome = .readStream (some e.name) e.size ∧
        (getImageRaw_internal r id).freads.length = 2 ∧
        (getImageRaw_internal r id).reader.databuffer
          = some (r.widthOrg * r.heightOrg * 30)) ∧
    (r.widthOrg * r.heightOrg * 30 < e.size →
      (getImageRaw_internal r id).outcome = .abort) := by
  constructor
  · intro hlo hhi
    have f1 : ((min e.size (r.widthOrg * r.heightOrg * 6 + 10000) : ℕ) : ℤ)
        > ((r.widthOrg * r.heightOrg * 6 : ℕ) : ℤ) := by
      have : r.widthOrg * r.heightOrg * 6 < min e.size (r.widthOrg * r.heightOrg * 6 + 10000) :=
        lt_min (by omega) (by omega)
      exact_mod_cast this
    have hmin2 : min e.size (r.widthOrg * r.heightOrg * 30 + 10000) = e.size :=
      min_eq_left (by omega)
    have f2 : ¬ ((e.size : ℤ) > ((r.widthOrg * r.heightOrg * 30 : ℕ) : ℤ)) := by
      have : ¬ (r.widthOrg * r.heightOrg * 30 < e.size) := by omega
      exact_mod_cast this
    unfold getImageRaw_internal
    simp only [hz, hopen, zip_fread, Bool.not_true, Bool.false_eq_true, if_false, if_pos f1,
      hmin2, if_neg f2, Option.map_some', List.length_cons, List.length_nil]
    simp
  · intro hbig
    have f1 : ((min e.size (r.widthOrg * r.heightOrg * 6 + 10000) : ℕ) : ℤ)
        > ((r.widthOrg * r.heightOrg * 6 : ℕ) : ℤ) := by
      have : r.widthOrg * r.heightOrg * 6 < min e.size (r.widthOrg * r.heightOrg * 6 + 10000) :=
        lt_min (by omega) (by omega)
      exact_mod_cast this
    have f2 : ((min e.size (r.widthOrg * r.heightOrg * 30 + 10000) : ℕ) : ℤ)
        > ((r.widthOrg * r.heightOrg * 30 : ℕ) : ℤ) := by
      have : r.widthOrg * r.heightOrg * 30
          < min e.size (r.widthOrg * r.heightOrg * 30 + 10000) :=
        lt_min (by omega) (by omega)
      exact_mod_cast this
    unfold getImageRaw_internal
    simp only [hz, hopen, zip_fread, Bool.not_true, Bool.false_eq_true, if_false, if_pos f1,
      if_pos f2]

/-- C2 at 640x480: an entry of 5,000,000 bytes (between `6P+10000 = 1853200`
and `30P = 9216000`) is read on the second attempt. -/
theorem getImageRaw_escalation_witness :
    (getImageRaw_internal (vgaZipReader 5000000 none) 0).outcome
      = .readStream (some "0.png".toList) 5000000 ∧
    (getImageRaw_internal (vgaZipReader 5000000 none) 0).freads.length = 2 ∧
    (getImageRaw_internal (vgaZipReader 5000000 none) 0).reader.databuffer = some 9216000 :=
  (getImageRaw_escalation (vgaZipReader 5000000 none) 0 ⟨"0.png".toList, 5000000⟩
    rfl (by decide)).1 (by decide) (by decide)

/-- C10 (failing input): at 640x480 an entry of 9220000 bytes makes
`getImageRaw_internal` retry with a request of `30P+10000 = 9226000` bytes
into the fresh buffer of `30P = 9216000` bytes; `zip_fread` delivers all
9220000 bytes before the call aborts. -/
theorem getImageRaw_retry_exceeds_capacity :
    (getImageRaw_internal (vgaZipReader 9220000 none) 0).freads =
      [⟨some "0.png".toList, 1853200, 1853200⟩, ⟨some "0.png".toList, 9216000, 9226000⟩] ∧
    ¬ withinCapacity (getImageRaw_internal (vgaZipReader 9220000 none) 0).freads ∧
    zip_fread (zip_fopen (vgaZipReader 9220000 none).ziparchive "0.png".toList) 9226000
      = 9220000 ∧
    (getImageRaw_internal (vgaZipReader 9220000 none) 0).outcome = .abort := by
  decide

/-- The depth path has the same retry: request `30P+10000` into `30P`. -/
theorem getDepth_retry_exceeds_capacity :
    ¬ withinCapacity (getDepth_internal depthZipReader 1).freads := by
  decide

/-- After an escalation the buffer of `30P` bytes stays in place, and for
`P < 417` it is smaller than the `6P+10000` bytes every first attempt
requests: at 10x10, reading `0.png` leaves a buffer of 3000 bytes, and the
next call asks for 10600 bytes into it. -/
theorem getImageRaw_after_escalation_exceeds_capacity :
    (getImageRaw_internal tinyZipReader 0).reader.databuffer = some 3000 ∧
    (getImageRaw_internal (getImageRaw_internal tinyZipReader 0).reader 1).freads
      = [⟨some "1.png".toList, 3000, 10600⟩] := by
  decide

/-- A first attempt on a buffer not allocated yet stays within it. -/
theorem getImageRaw_first_read_within_capacity (r : ImageFolderReader) (id : Nat)
    (h : r.databuffer = none) :
    ∀ c ∈ (getImageRaw_internal r id).freads.head?, c.requested ≤ c.capacity := by
  unfold getImageRaw_internal
  dsimp only
  split_ifs <;> simp [h]

/-- When `files[id]` and `depth_files[id]` are the same name, the depth read is
the image read on the depth members. -/
theorem getDepth_eq_getImageRaw_of_same_name (r : ImageFolderReader) (id : Nat)
    (h : r.files.getD id [] = r.depth_files.getD id []) :
    (getDepth_internal r id).outcome = (getImageRaw_internal (depthAsMain r) id).outcome ∧
    (getDepth_internal r id).freads = (getImageRaw_internal (depthAsMain r) id).freads := by
  unfold getDepth_internal getImageRaw_internal depthAsMain
  dsimp only
  rw [h]
  split_ifs <;> exact ⟨rfl, rfl⟩

/-- C9 (failing input): for `id = 1` the first read of `getDepth_internal`
opens `depth_files[1] = "c"` and overflows; the retry opens `files[1] = "b"` in
the depth archive, so 10 bytes of entry `b` reach the decoder, where
`getImageRaw_internal` on the depth members delivers the 1843201 bytes of `c`. -/
theorem getDepth_retry_opens_other_entry :
    (getDepth_internal depthZipReader 1).freads.map (·.entry)
      = [some "c".toList, some "b".toList] ∧
    (getDepth_internal depthZipReader 1).outcome = .readStream (some "b".toList) 10 ∧
    (getImageRaw_internal (depthAsMain depthZipReader) 1).outcome
      = .readStream (some "c".toList) 1843201 := by
  decide

/-! ## Rounding to `float` -/

theorem minSubnormal_pos : 0 < minSubnormal := by norm_num [minSubnormal]

theorem ulpSearch_ge (a : ℚ) (fuel : Nat) (u : ℚ) (hu : 0 < u) : u ≤ ulpSearch a fuel u := by
  induction fuel generalizing u with
  | zero => exact le_refl _
  | succ n ih =>
    unfold ulpSearch
    split_ifs
    · exact le_refl _
    · exact le_trans (by linarith) (ih (2 * u) (by linarith))

theorem ulpSearch_spec (a : ℚ) (fuel : Nat) (u : ℚ) (hu : 0 < u) :
    ulpSearch a fuel u = u ∨ 8388608 * ulpSearch a fuel u ≤ a := by
  induction fuel generalizing u with
  | zero => left; rfl
  | succ n ih =>
    unfold ulpSearch
    split_ifs with h
    · left; rfl
    · right
      rcases ih (2 * u) (by linarith) with h2 | h2
      · rw [h2]; linarith
      · exact h2

theorem ulp32_pos (a : ℚ) : minSubnormal ≤ ulp32 a :=
  ulpSearch_ge a 253 minSubnormal minSubnormal_pos

theorem ulp32_spec (a : ℚ) : ulp32 a = minSubnormal ∨ 8388608 * ulp32 a ≤ a :=
  ulpSearch_spec a 253 minSubnormal minSubnormal_pos

theorem roundHalfEven_ge (x : ℚ) (k : ℕ) (h : (k : ℚ) ≤ x) : k ≤ roundHalfEven x := by
  have hf : k ≤ ⌊x⌋₊ := Nat.le_floor h
  unfold roundHalfEven
  dsimp only
  split_ifs <;> omega

/-- Rounding keeps a value above a small multiple of the smallest subnormal. -/
theorem roundF32_atLeast (q : ℚ) (k : ℕ) (hk : k ≤ 8388608)
    (hq : (k : ℚ) * minSubnormal ≤ q) (hq0 : 0 ≤ q) :
    (roundF32 q).AtLeast ((k : ℚ) * minSubnormal) := by
  have hneg : ¬ q < 0 := not_lt.mpr hq0
  have hu := ulp32_pos q
  have hupos : 0 < ulp32 q := lt_of_lt_of_le minSubnormal_pos hu
  have hk' : (k : ℚ) ≤ 8388608 := by exact_mod_cast hk
  have hm : (k : ℚ) * minSubnormal ≤ (roundHalfEven (q / ulp32 q) : ℚ) * ulp32 q := by
    rcases ulp32_spec q with h | h
    · have hdiv : (k : ℚ) ≤ q / ulp32 q := by
        rw [le_div_iff₀ hupos, h]; exact hq
      have hn : k ≤ roundHalfEven (q / ulp32 q) :=
        roundHalfEven_ge _ _ hdiv
      have hn' : (k : ℚ) ≤ (roundHalfEven (q / ulp32 q) : ℚ) := by exact_mod_cast hn
      calc (k : ℚ) * minSubnormal
          ≤ (roundHalfEven (q / ulp32 q) : ℚ) * minSubnormal :=
            mul_le_mul_of_nonneg_right hn' minSubnormal_pos.le
        _ = (roundHalfEven (q / ulp32 q) : ℚ) * ulp32 q := by rw [h]
    · have hdiv : ((8388608 : ℕ) : ℚ) ≤ q / ulp32 q := by
        rw [le_div_iff₀ hupos]; push_cast; exact h
      have hn : 8388608 ≤ roundHalfEven (q / ulp32 q) :=
        roundHalfEven_ge _ _ hdiv
      have hn' : (8388608 : ℚ) ≤ (roundHalfEven (q / ulp32 q) : ℚ) := by exact_mod_cast hn
      calc (k : ℚ) * minSubnormal ≤ 8388608 * ulp32 q :=
            mul_le_mul hk' hu minSubnormal_pos.le (by norm_num)
        _ ≤ (roundHalfEven (q / ulp32 q) : ℚ) * ulp32 q :=
            mul_le_mul_of_nonneg_right hn' hupos.le
  unfold roundF32
  simp only [hneg, if_false]
  split_ifs
  · left; rfl
  · right; exact ⟨_, rfl, hm⟩

theorem roundF32_onGrid (q : ℚ) : (roundF32 q).OnGrid := by
  intro m hm hpos
  unfold roundF32 at hm
  dsimp only at hm
  have hu : ∀ a, minSubnormal ≤ ulp32 a := ulp32_pos
  have key : ∀ a : ℚ, 0 < (roundHalfEven (a / ulp32 a) : ℚ) * ulp32 a →
      minSubnormal ≤ (roundHalfEven (a / ulp32 a) : ℚ) * ulp32 a := by
    intro a h
    have hupos : 0 < ulp32 a := lt_of_lt_of_le minSubnormal_pos (hu a)
    have hn0 : roundHalfEven (a / ulp32 a) ≠ 0 := by
      intro h0
      rw [h0] at h
      simp at h
    have hn1 : (1 : ℚ) ≤ (roundHalfEven (a / ulp32 a) : ℚ) := by
      exact_mod_cast Nat.one_le_iff_ne_zero.mpr hn0
    calc minSubnormal = 1 * minSubnormal := (one_mul _).symm
      _ ≤ (roundHalfEven (a / ulp32 a) : ℚ) * ulp32 a :=
          mul_le_mul hn1 (hu a) minSubnormal_pos.le (by linarith)
  split_ifs at hm with h1 h2 h3
  · injection hm with hm
    subst hm
    exfalso
    have hupos : 0 < ulp32 (-q) := lt_of_lt_of_le minSubnormal_pos (hu _)
    have : 0 ≤ (roundHalfEven (-q / ulp32 (-q)) : ℚ) * ulp32 (-q) :=
      mul_nonneg (Nat.cast_nonneg _) hupos.le
    linarith
  · injection hm with hm
    subst hm
    exact key q hpos

theorem onGrid_posInf : FloatVal.posInf.OnGrid := fun _ h => by cases h

theorem onGrid_negInf : FloatVal.negInf.OnGrid := fun _ h => by cases h

theorem onGrid_nan : FloatVal.nan.OnGrid := fun _ h => by cases h

theorem onGrid_zero : (FloatVal.fin 0).OnGrid := by
  intro m h hpos
  injection h with h
  rw [← h] at hpos
  exact absurd hpos (lt_irrefl _)

theorem toF32_onGrid (x : FloatVal) : (toF32 x).OnGrid := by
  cases x with
  | fin q => exact roundF32_onGrid q
  | posInf => exact onGrid_posInf
  | negInf => exact onGrid_negInf
  | nan => exact onGrid_nan

theorem divF32_onGrid (a b : FloatVal) : (divF32 a b).OnGrid := by
  cases a <;> cases b <;> simp only [divF32] <;>
    (repeat' split) <;>
    first
      | exact roundF32_onGrid _
      | exact onGrid_posInf
      | exact onGrid_negInf
      | exact onGrid_nan
      | exact onGrid_zero

theorem atLeast_of_gtZero (x : FloatVal) (h : x.gtZero = true) (hg : x.OnGrid) :
    x.AtLeast minSubnormal := by
  cases x with
  | fin q =>
    have hq : 0 < q := by simpa [FloatVal.gtZero] using h
    exact Or.inr ⟨q, rfl, hg q rfl hq⟩
  | posInf => exact Or.inl rfl
  | negInf => simp [FloatVal.gtZero] at h
  | nan => simp [FloatVal.gtZero] at h

theorem atLeast_ne_zero (x : FloatVal) (h : x.AtLeast minSubnormal) : x ≠ .fin 0 := by
  rintro rfl
  rcases h with h | ⟨m, hm, hle⟩
  · cases h
  · injection hm with hm
    rw [← hm] at hle
    exact absurd minSubnormal_pos (not_lt.mpr hle)

theorem addF32_zero_atLeast (x : FloatVal) (h : x.AtLeast minSubnormal) :
    (addF32 (.fin 0) x).AtLeast minSubnormal := by
  rcases h with rfl | ⟨m, rfl, hle⟩
  · exact Or.inl rfl
  · have := roundF32_atLeast (0 + m) 1 (by norm_num) (by simpa using hle)
      (by linarith [minSubnormal_pos])
    simpa [addF32] using this

theorem addF32_atLeast_two (s y : FloatVal) (hs : s.AtLeast minSubnormal)
    (hy : y.AtLeast minSubnormal) : (addF32 s y).AtLeast (2 * minSubnormal) := by
  rcases hs with rfl | ⟨a, rfl, ha⟩ <;> rcases hy with rfl | ⟨b, rfl, hb⟩
  · exact Or.inl rfl
  · exact Or.inl rfl
  · exact Or.inl rfl
  · have := roundF32_atLeast (a + b) 2 (by norm_num) (by push_cast; linarith)
      (by linarith [minSubnormal_pos])
    simpa [addF32] using this

theorem divF32_one_atLeast (s : FloatVal) (hs : s.AtLeast minSubnormal) :
    (divF32 s (.fin 1)).AtLeast minSubnormal := by
  rcases hs with rfl | ⟨a, rfl, ha⟩
  · exact Or.inl (by simp [divF32])
  · have := roundF32_atLeast (a / 1) 1 (by norm_num) (by simpa using ha)
      (by simpa using le_trans minSubnormal_pos.le ha)
    simpa [divF32] using this

theorem divF32_two_atLeast (s : FloatVal) (hs : s.AtLeast (2 * minSubnormal)) :
    (divF32 s (.fin 2)).AtLeast minSubnormal := by
  rcases hs with rfl | ⟨a, rfl, ha⟩
  · exact Or.inl (by simp [divF32])
  · have := roundF32_atLeast (a / 2) 1 (by norm_num) (by push_cast; linarith)
      (by linarith [minSubnormal_pos])
    simpa [divF32] using this

theorem floatMean_single (a : FloatVal) :
    floatMean [a] = divF32 (addF32 (.fin 0) a) (.fin 1) := by
  simp [floatMean, floatSum, floatCount, addF32_zero_one]

theorem floatMean_pair (a b : FloatVal) :
    floatMean [a, b] = divF32 (addF32 (addF32 (.fin 0) a) b) (.fin 2) := by
  simp [floatMean, floatSum, floatCount, addF32_zero_one, addF32_one_one]

/-- The `float` mean of one or two contributors that are `+inf` or at least
the smallest positive `float` is again such a value: a repair never yields
`0`. -/
theorem floatMean_atLeast (l : List FloatVal) (hne : l ≠ []) (hlen : l.length ≤ 2)
    (hall : ∀ x ∈ l, x.AtLeast minSubnormal) : (floatMean l).AtLeast minSubnormal := by
  match l, hne, hlen, hall with
  | [a], _, _, hall =>
    rw [floatMean_single]
    exact divF32_one_atLeast _ (addF32_zero_atLeast _ (hall a (by simp)))
  | [a, b], _, _, hall =>
    rw [floatMean_pair]
    exact divF32_two_atLeast _
      (addF32_atLeast_two _ _ (addF32_zero_atLeast _ (hall a (by simp))) (hall b (by simp)))
  | _ :: _ :: _ :: _, _, hlen, _ => simp at hlen

/-! ## The repair loop -/

theorem getD_set_ne (l : List FloatVal) (i j : Nat) (v : FloatVal) (h : j ≠ i) :
    (l.set i v).getD j (.fin 0) = l.getD j (.fin 0) := by
  have h' : ¬ i = j := fun e => h e.symm
  simp only [List.getD_eq_getElem?_getD, List.getElem?_set, h', if_false]

theorem getD_set_self (l : List FloatVal) (i : Nat) (v : FloatVal) (hi : i < l.length) :
    (l.set i v).getD i (.fin 0) = v := by
  simp [List.getD_eq_getElem?_getD, List.getElem?_set, hi]

theorem fixExposure_length (l : List FloatVal) (i : Nat) :
    (fixExposure l i).length = l.length := by
  unfold fixExposure
  dsimp only
  split_ifs <;> simp only [List.length_set]

theorem fixExposure_getD_ne (l : List FloatVal) (i j : Nat) (h : j ≠ i) :
    (fixExposure l i).getD j (.fin 0) = l.getD j (.fin 0) := by
  unfold fixExposure
  dsimp only
  split_ifs <;> first | rfl | exact getD_set_ne l i j _ h

theorem loopContributors_length (current parsed : List FloatVal) (i : Nat) :
    (loopContributors current parsed i).length ≤ 2 := by
  unfold loopContributors
  split_ifs <;> simp

/-- Value left at index `i` by the fix for `i`, from the three entries it
reads: with no contributor the entry stays `0`. -/
theorem fixExposure_getD_self (l : List FloatVal) (i : Nat) (hi : i < l.length) :
    (fixExposure l i).getD i (.fin 0) =
      if l.getD i (.fin 0) = .fin 0 then
        (if loopContributors l l i = [] then .fin 0 else floatMean (loopContributors l l i))
      else l.getD i (.fin 0) := by
  unfold fixExposure
  dsimp only
  by_cases h0 : l.getD i (.fin 0) = .fin 0
  · rw [if_pos h0, if_pos h0]
    have g1 : (FloatVal.fin 1).gtZero = true := by decide!
    have g2 : (FloatVal.fin 2).gtZero = true := by decide!
    have g0 : ¬ ((FloatVal.fin 0).gtZero = true) := by decide!
    by_cases hl : 0 < i ∧ (l.getD (i - 1) (.fin 0)).gtZero = true <;>
    by_cases hr : i + 1 < l.length ∧ (l.getD (i + 1) (.fin 0)).gtZero = true
    · simp only [hl, hr, and_self, decide_True, if_true, loopContributors, List.singleton_append,
        addF32_zero_one, addF32_one_one, g2, floatMean_pair]
      rw [getD_set_self _ _ _ hi, if_neg (by simp)]
    · simp only [hl, hr, and_self, decide_True, decide_False, if_true, if_false,
        Bool.false_eq_true, loopContributors, List.append_nil, addF32_zero_one, g1,
        floatMean_single]
      rw [getD_set_self _ _ _ hi, if_neg (by simp)]
    · simp only [hl, hr, and_self, decide_True, decide_False, if_true, if_false,
        Bool.false_eq_true, loopContributors, List.nil_append, addF32_zero_one, g1,
        floatMean_single]
      rw [getD_set_self _ _ _ hi, if_neg (by simp)]
    · simp only [hl, hr, decide_False, if_false, Bool.false_eq_true, loopContributors,
        List.append_nil, g0, if_true]
      exact h0
  · rw [if_neg h0, if_neg h0]

theorem fixExposure_onGrid (l : List FloatVal) (i : Nat) (h : ∀ x ∈ l, x.OnGrid) :
    ∀ x ∈ fixExposure l i, x.OnGrid := by
  unfold fixExposure
  dsimp only
  have hset : ∀ v : FloatVal, v.OnGrid → ∀ x ∈ l.set i v, x.OnGrid := by
    intro v hv x hx
    rcases List.mem_or_eq_of_mem_set hx with hx | rfl
    · exact h x hx
    · exact hv
  split_ifs <;> first | exact h | exact hset _ (divF32_onGrid _ _)

theorem repairUpTo_succ (k : Nat) (e : List FloatVal) (g : Bool) :
    repairUpTo (k + 1) e g = repairBody (repairUpTo k e g) k := by
  simp [repairUpTo, List.range_succ]

theorem repairUpTo_length (k : Nat) (e : List FloatVal) (g : Bool) :
    (repairUpTo k e g).1.length = e.length := by
  induction k with
  | zero => rfl
  | succ k ih => rw [repairUpTo_succ]; simp [repairBody, fixExposure_length, ih]

theorem repairUpTo_onGrid (k : Nat) (e : List FloatVal) (g : Bool) (h : ∀ x ∈ e, x.OnGrid) :
    ∀ x ∈ (repairUpTo k e g).1, x.OnGrid := by
  induction k with
  | zero => exact h
  | succ k ih =>
    rw [repairUpTo_succ]
    exact fixExposure_onGrid _ _ ih

/-- Iterations `0..k-1` leave the entries from `k` on as parsed. -/
theorem repairUpTo_getD_ge (k : Nat) (e : List FloatVal) (g : Bool) (j : Nat) (h : k ≤ j) :
    (repairUpTo k e g).1.getD j (.fin 0) = e.getD j (.fin 0) := by
  induction k with
  | zero => rfl
  | succ k ih =>
    rw [repairUpTo_succ]
    simp only [repairBody]
    rw [fixExposure_getD_ne _ _ _ (by omega), ih (by omega)]

/-- Entry `j` is final once iteration `j` has run. -/
theorem repairUpTo_getD_lt (k : Nat) (e : List FloatVal) (g : Bool) (j : Nat) (h : j < k) :
    (repairUpTo k e g).1.getD j (.fin 0) = (repairUpTo (j + 1) e g).1.getD j (.fin 0) := by
  induction k with
  | zero => omega
  | succ k ih =>
    by_cases hjk : j = k
    · subst hjk; rfl
    · rw [repairUpTo_succ]
      simp only [repairBody]
      rw [fixExposure_getD_ne _ _ _ hjk, ih (by omega)]

/-- The flag after `k` iterations: still `true` exactly when it started `true`
and none of the first `k` final entries is `0`. -/
theorem repairUpTo_good (k : Nat) (e : List FloatVal) (g : Bool) :
    (repairUpTo k e g).2 = true ↔
      g = true ∧ ∀ j < k, (repairUpTo k e g).1.getD j (.fin 0) ≠ .fin 0 := by
  induction k with
  | zero => simp [repairUpTo]
  | succ k ih =>
    have hsucc : ∀ j < k, (repairUpTo (k + 1) e g).1.getD j (.fin 0)
        = (repairUpTo k e g).1.getD j (.fin 0) := by
      intro j hj
      rw [repairUpTo_getD_lt (k + 1) e g j (by omega), repairUpTo_getD_lt k e g j hj]
    constructor
    · intro h
      rw [repairUpTo_succ] at h
      simp only [repairBody] at h
      by_cases hz : (fixExposure (repairUpTo k e g).1 k).getD k (.fin 0) = .fin 0
      · rw [if_pos hz] at h
        exact absurd h (by simp)
      · rw [if_neg hz] at h
        obtain ⟨hg, hall⟩ := ih.mp h
        refine ⟨hg, fun j hj => ?_⟩
        by_cases hjk : j = k
        · subst hjk
          rw [repairUpTo_succ]
          exact hz
        · rw [hsucc j (by omega)]
          exact hall j (by omega)
    · rintro ⟨hg, hall⟩
      have hk := hall k (by omega)
      rw [repairUpTo_succ] at hk ⊢
      simp only [repairBody] at hk ⊢
      rw [if_neg hk]
      exact ih.mpr ⟨hg, fun j hj => by rw [← hsucc j hj]; exact hall j (by omega)⟩

/-- The loop keeps the length of the vector. -/
theorem repairLoop_length (e : List FloatVal) (g : Bool) :
    (repairLoop e g).1.length = e.length :=
  repairUpTo_length _ e g

theorem repairLoop_onGrid (e : List FloatVal) (g : Bool) (h : ∀ x ∈ e, x.OnGrid) :
    ∀ x ∈ (repairLoop e g).1, x.OnGrid :=
  repairUpTo_onGrid _ e g h

/-- Final value of entry `i`: a non-zero parsed exposure is kept; a zero one
becomes the `float` mean of its loop contributors, and stays `0` when there is
none. -/
theorem repairLoop_getD (e : List FloatVal) (g : Bool) (i : Nat) (hi : i < e.length) :
    (repairLoop e g).1.getD i (.fin 0) =
      if e.getD i (.fin 0) = .fin 0 then
        (if loopContributors (repairLoop e g).1 e i = [] then .fin 0
         else floatMean (loopContributors (repairLoop e g).1 e i))
      else e.getD i (.fin 0) := by
  unfold repairLoop
  rw [repairUpTo_getD_lt _ e g i hi, repairUpTo_succ]
  simp only [repairBody]
  rw [fixExposure_getD_self _ _ (by rw [repairUpTo_length]; exact hi)]
  rw [repairUpTo_getD_ge i e g i le_rfl]
  have hctr : loopContributors (repairUpTo i e g).1 (repairUpTo i e g).1 i
      = loopContributors (repairUpTo e.length e g).1 e i := by
    unfold loopContributors
    rw [repairUpTo_length, repairUpTo_getD_ge i e g (i + 1) (by omega)]
    by_cases h0 : 0 < i
    · rw [repairUpTo_getD_lt e.length e g (i - 1) (by omega),
        show i - 1 + 1 = i by omega]
    · simp [h0]
  rw [hctr]

theorem repairLoop_good (e : List FloatVal) (g : Bool) :
    (repairLoop e g).2 = true ↔ g = true ∧ FloatVal.fin 0 ∉ (repairLoop e g).1 := by
  unfold repairLoop
  rw [repairUpTo_good]
  have hlen := repairUpTo_length e.length e g
  constructor
  · rintro ⟨hg, hall⟩
    refine ⟨hg, fun hmem => ?_⟩
    obtain ⟨n, hn, hget⟩ := List.getElem_of_mem hmem
    have := hall n (by omega)
    rw [List.getD_eq_getElem _ _ hn] at this
    exact this hget
  · rintro ⟨hg, hnot⟩
    refine ⟨hg, fun j hj habs => hnot ?_⟩
    rw [List.getD_eq_getElem _ _ (by omega)] at habs
    rw [← habs]
    exact List.getElem_mem _

/-! ## `loadTimestamps` when the counts agree -/

theorem readLines_lengths (lines : List ScanLine) (st : List FloatVal × List FloatVal)
    (h : st.1.length = st.2.length) :
    (readLines st lines).1.length = (readLines st lines).2.length := by
  induction lines generalizing st with
  | nil => exact h
  | cons line rest ih =>
    simp only [readLines, List.foldl_cons]
    apply ih
    cases line <;> simp [pushLine, h]

theorem readLines_onGrid (lines : List ScanLine) (st : List FloatVal × List FloatVal)
    (h : ∀ x ∈ st.2, x.OnGrid) : ∀ x ∈ (readLines st lines).2, x.OnGrid := by
  induction lines generalizing st with
  | nil => exact h
  | cons line rest ih =>
    simp only [readLines, List.foldl_cons]
    apply ih
    cases line with
    | three id stamp exposure =>
      intro x hx
      simp only [pushLine, List.mem_append, List.mem_singleton] at hx
      rcases hx with hx | rfl
      · exact h x hx
      · exact toF32_onGrid _
    | two id stamp =>
      intro x hx
      simp only [pushLine, List.mem_append, List.mem_singleton] at hx
      rcases hx with hx | rfl
      · exact h x hx
      · exact onGrid_zero
    | noMatch => exact h

theorem parsed_lengths (lines : List ScanLine) :
    (parsedStamps lines).length = (parsedExposures lines).length :=
  readLines_lengths lines ([], []) rfl

/-- Every parsed exposure is a `float`: when finite and positive it is at
least `2^-149`. -/
theorem parsedExposures_onGrid (lines : List ScanLine) :
    ∀ x ∈ parsedExposures lines, x.OnGrid :=
  readLines_onGrid lines ([], []) (fun _ h => by cases h)

/-- With as many parsed lines as images, the timestamps are kept and the
exposures are the repaired ones, or none when a `0` is left among them. -/
theorem loadTimestamps_of_match (r : ImageFolderReader) (lines : List ScanLine)
    (ht : r.timestamps = []) (he : r.exposures = [])
    (hlen : (parsedStamps lines).length = r.files.length) :
    (loadTimestamps r lines).timestamps = parsedStamps lines ∧
    (loadTimestamps r lines).exposures =
      if FloatVal.fin 0 ∈ (repairLoop (parsedExposures lines) true).1 then []
      else (repairLoop (parsedExposures lines) true).1 := by
  have hlenE : (parsedExposures lines).length = r.files.length := by
    rw [← parsed_lengths, hlen]
  constructor
  · rw [loadTimestamps_timestamps, ht, he]
    exact if_pos hlen
  · simp only [loadTimestamps, getNumImages, ht, he]
    have e1 : (readLines ([], []) lines).1 = parsedStamps lines := rfl
    have e2 : (readLines ([], []) lines).2 = parsedExposures lines := rfl
    rw [e1, e2, hlen, hlenE]
    simp only [ne_eq, not_true_eq_false, decide_False, decide_True, Bool.false_eq_true,
      if_false, repairLoop_length, hlenE, false_or]
    by_cases hz : FloatVal.fin 0 ∈ (repairLoop (parsedExposures lines) true).1
    · have hb : (repairLoop (parsedExposures lines) true).2 = false := by
        cases hb' : (repairLoop (parsedExposures lines) true).2
        · rfl
        · exact absurd hz ((repairLoop_good _ _).mp hb').2
      rw [if_pos hb, if_pos hz]
    · have hb : (repairLoop (parsedExposures lines) true).2 = true :=
        (repairLoop_good _ _).mpr ⟨rfl, hz⟩
      rw [if_neg (by simp [hb]), if_neg hz]

/-- Every loop contributor is `+inf` or at least the smallest positive
`float`, when the two vectors hold `float`s. -/
theorem loopContributors_atLeast (current parsed : List FloatVal) (i : Nat)
    (hc : ∀ x ∈ current, x.OnGrid) (hp : ∀ x ∈ parsed, x.OnGrid) :
    ∀ x ∈ loopContributors current parsed i, x.AtLeast minSubnormal := by
  have hgetD : ∀ (l : List FloatVal) (j : Nat), (∀ x ∈ l, x.OnGrid) →
      (l.getD j (.fin 0)).OnGrid := by
    intro l j hl
    by_cases hj : j < l.length
    · rw [List.getD_eq_getElem _ _ hj]
      exact hl _ (List.getElem_mem _)
    · rw [List.getD_eq_default _ _ (by omega)]
      exact onGrid_zero
  intro x hx
  unfold loopContributors at hx
  rw [List.mem_append] at hx
  rcases hx with hx | hx
  · split_ifs at hx with h
    · rw [List.mem_singleton] at hx
      subst hx
      exact atLeast_of_gtZero _ h.2 (hgetD _ _ hc)
    · cases hx
  · split_ifs at hx with h
    · rw [List.mem_singleton] at hx
      subst hx
      exact atLeast_of_gtZero _ h.2 (hgetD _ _ hp)
    · cases hx

/-- C4: with as many parsed lines as images, and every parsed exposure `0`
next to a parsed exposure `> 0` (at `i-1` or `i+1`), `loadTimestamps` keeps
the timestamps as parsed and keeps `getNumImages()` exposures, none of them
`0`. -/
theorem loadTimestamps_accepts_repairable (r : ImageFolderReader) (lines : List ScanLine)
    (ht : r.timestamps = []) (he : r.exposures = [])
    (hlen : (parsedStamps lines).length = r.files.length)
    (hnb : ∀ i < (parsedExposures lines).length,
      (parsedExposures lines).getD i (.fin 0) = .fin 0 →
      (0 < i ∧ ((parsedExposures lines).getD (i - 1) (.fin 0)).gtZero = true) ∨
      (i + 1 < (parsedExposures lines).length ∧
        ((parsedExposures lines).getD (i + 1) (.fin 0)).gtZero = true)) :
    (loadTimestamps r lines).timestamps = parsedStamps lines ∧
    ((loadTimestamps r lines).exposures.length : Int) = getNumImages (loadTimestamps r lines) ∧
    ∀ x ∈ (loadTimestamps r lines).exposures, x ≠ .fin 0 := by
  obtain ⟨hts, hex⟩ := loadTimestamps_of_match r lines ht he hlen
  have hgrid := parsedExposures_onGrid lines
  have hnz : FloatVal.fin 0 ∉ (repairLoop (parsedExposures lines) true).1 := by
    intro hmem
    obtain ⟨i, hi, hget⟩ := List.getElem_of_mem hmem
    have hi' : i < (parsedExposures lines).length := by
      rw [repairLoop_length] at hi; exact hi
    have hval := repairLoop_getD (parsedExposures lines) true i hi'
    rw [List.getD_eq_getElem _ _ hi, hget] at hval
    by_cases h0 : (parsedExposures lines).getD i (.fin 0) = .fin 0
    · rw [if_pos h0] at hval
      have hne : loopContributors (repairLoop (parsedExposures lines) true).1
          (parsedExposures lines) i ≠ [] := by
        unfold loopContributors
        rcases hnb i hi' h0 with ⟨hi0, hl⟩ | hr
        · have hprev := repairLoop_getD (parsedExposures lines) true (i - 1) (by omega)
          have hnz' : (parsedExposures lines).getD (i - 1) (.fin 0) ≠ .fin 0 := by
            intro hz
            rw [hz] at hl
            exact absurd hl (by decide!)
          rw [if_neg hnz'] at hprev
          rw [if_pos ⟨hi0, by rw [hprev]; exact hl⟩]
          simp
        · rw [if_pos hr]
          simp
      rw [if_neg hne] at hval
      have hpos := floatMean_atLeast _ hne (loopContributors_length _ _ _)
        (loopContributors_atLeast _ _ i (repairLoop_onGrid _ _ hgrid) hgrid)
      exact atLeast_ne_zero _ hpos hval.symm
    · rw [if_neg h0] at hval
      exact h0 hval.symm
  rw [if_neg hnz] at hex
  refine ⟨hts, ?_, ?_⟩
  · rw [hex, repairLoop_length, ← parsed_lengths, hlen]
    rfl
  · intro x hx h0
    rw [hex, h0] at hx
    exact hnz hx

/-- C4 at the spec's example: lines `0 0.0 1.0`, `1 0.1 1.0`, `2 0.2 0` for
three images give the timestamps as parsed and exposures `[1, 1, 1]`. -/
theorem loadTimestamps_accepts_repairable_witness :
    ((loadTimestamps threeFrames
        [.three 0 (.fin 0) (.fin 1), .three 1 (.fin (1 / 10)) (.fin 1), .three 2 (.fin (2 / 10)) (.fin 0)]).timestamps
      = parsedStamps [.three 0 (.fin 0) (.fin 1), .three 1 (.fin (1 / 10)) (.fin 1), .three 2 (.fin (2 / 10)) (.fin 0)] ∧
    ((loadTimestamps threeFrames
        [.three 0 (.fin 0) (.fin 1), .three 1 (.fin (1 / 10)) (.fin 1), .three 2 (.fin (2 / 10)) (.fin 0)]).exposures.length : Int)
      = getNumImages (loadTimestamps threeFrames
        [.three 0 (.fin 0) (.fin 1), .three 1 (.fin (1 / 10)) (.fin 1), .three 2 (.fin (2 / 10)) (.fin 0)]) ∧
    ∀ x ∈ (loadTimestamps threeFrames
        [.three 0 (.fin 0) (.fin 1), .three 1 (.fin (1 / 10)) (.fin 1), .three 2 (.fin (2 / 10)) (.fin 0)]).exposures, x ≠ .fin 0) ∧
    (loadTimestamps threeFrames
        [.three 0 (.fin 0) (.fin 1), .three 1 (.fin (1 / 10)) (.fin 1), .three 2 (.fin (2 / 10)) (.fin 0)]).exposures = [.fin 1, .fin 1, .fin 1] :=
  ⟨loadTimestamps_accepts_repairable threeFrames
      [.three 0 (.fin 0) (.fin 1), .three 1 (.fin (1 / 10)) (.fin 1), .three 2 (.fin (2 / 10)) (.fin 0)] rfl rfl (by decide) (by decide!),
    by decide!⟩

/-- C5: with as many parsed lines as images but an exposure still `0` after
the repair loop, `loadTimestamps` clears `exposures` only: `timestamps` are
the parsed ones, in order, `getNumImages()` of them. -/
theorem loadTimestamps_discards_exposures_only (r : ImageFolderReader)
    (lines : List ScanLine) (ht : r.timestamps = []) (he : r.exposures = [])
    (hlen : (parsedStamps lines).length = r.files.length)
    (hzero : FloatVal.fin 0 ∈ (repairLoop (parsedExposures lines) true).1) :
    (loadTimestamps r lines).exposures = [] ∧
    (loadTimestamps r lines).timestamps = parsedStamps lines ∧
    ((loadTimestamps r lines).timestamps.length : Int)
      = getNumImages (loadTimestamps r lines) := by
  obtain ⟨hts, hex⟩ := loadTimestamps_of_match r lines ht he hlen
  rw [if_pos hzero] at hex
  refine ⟨hex, hts, ?_⟩
  rw [hts, hlen]
  rfl

/-- C5 at three images whose lines never give an exposure: nothing can be
repaired, the exposures go, the three timestamps stay. -/
theorem loadTimestamps_discards_exposures_only_witness :
    (loadTimestamps threeFrames [.two 0 (.fin 0), .two 1 (.fin (1 / 10)), .two 2 (.fin (2 / 10))]).exposures = [] ∧
    (loadTimestamps threeFrames [.two 0 (.fin 0), .two 1 (.fin (1 / 10)), .two 2 (.fin (2 / 10))]).timestamps
      = parsedStamps [.two 0 (.fin 0), .two 1 (.fin (1 / 10)), .two 2 (.fin (2 / 10))] ∧
    ((loadTimestamps threeFrames
        [.two 0 (.fin 0), .two 1 (.fin (1 / 10)), .two 2 (.fin (2 / 10))]).timestamps.length : Int)
      = getNumImages (loadTimestamps threeFrames [.two 0 (.fin 0), .two 1 (.fin (1 / 10)), .two 2 (.fin (2 / 10))]) :=
  loadTimestamps_discards_exposures_only threeFrames
    [.two 0 (.fin 0), .two 1 (.fin (1 / 10)), .two 2 (.fin (2 / 10))] rfl rfl (by decide) (by decide!)

/-! ## The value a repair writes -/

/-- C8 (as stated, refuted): parsed exposures `[2, 0, 0, 4]` for four images
are accepted as `[2, 2, 3, 4]`.  Entry 2 is the mean of the repaired entry 1
and the parsed entry 3; the mean of its non-zero parsed neighbours is `4`. -/
theorem repair_value_depends_on_earlier_repair :
    parsedExposures [.three 0 (.fin 0) (.fin 2), .two 1 (.fin (1 / 10)), .two 2 (.fin (2 / 10)),
        .three 3 (.fin (3 / 10)) (.fin 4)]
      = [.fin 2, .fin 0, .fin 0, .fin 4] ∧
    (loadTimestamps fourFrames
      [.three 0 (.fin 0) (.fin 2), .two 1 (.fin (1 / 10)), .two 2 (.fin (2 / 10)),
        .three 3 (.fin (3 / 10)) (.fin 4)]).exposures
      = [.fin 2, .fin 2, .fin 3, .fin 4] ∧
    floatMean (parsedContributors
      (parsedExposures [.three 0 (.fin 0) (.fin 2), .two 1 (.fin (1 / 10)), .two 2 (.fin (2 / 10)),
        .three 3 (.fin (3 / 10)) (.fin 4)]) 2)
      = .fin 4 ∧
    (loadTimestamps fourFrames
      [.three 0 (.fin 0) (.fin 2), .two 1 (.fin (1 / 10)), .two 2 (.fin (2 / 10)),
        .three 3 (.fin (3 / 10)) (.fin 4)]).exposures.getD 2 (.fin 0)
      ≠ floatMean (parsedContributors
        (parsedExposures
          [.three 0 (.fin 0) (.fin 2), .two 1 (.fin (1 / 10)), .two 2 (.fin (2 / 10)),
        .three 3 (.fin (3 / 10)) (.fin 4)]) 2) := by
  decide!

/-- A neighbour that is non-zero but not `> 0` does not contribute: parsed
exposures `[-1, 0, 3]` are accepted as `[-1, 3, 3]`, while the mean of the
non-zero parsed neighbours of entry 1 is `1`. -/
theorem repair_value_skips_negative_neighbour :
    (loadTimestamps threeFrames
      [.three 0 (.fin 0) (.fin (-1)), .two 1 (.fin (1 / 10)),
        .three 2 (.fin (2 / 10)) (.fin 3)]).exposures = [.fin (-1), .fin 3, .fin 3] ∧
    floatMean (parsedContributors
      (parsedExposures [.three 0 (.fin 0) (.fin (-1)), .two 1 (.fin (1 / 10)),
        .three 2 (.fin (2 / 10)) (.fin 3)]) 1) = .fin 1 := by
  decide!

/-- The written value is the rounded `float` mean: between the exposures
`0.1f` and `0.2f` the repair stores `5033165/33554432`, and between two
exposures `3e38f` it stores `+inf`, which is accepted. -/
theorem repair_value_is_rounded :
    (loadTimestamps threeFrames
      [.three 0 (.fin 0) (.fin (1 / 10)), .two 1 (.fin (1 / 10)),
        .three 2 (.fin (2 / 10)) (.fin (1 / 5))]).exposures
      = [.fin (13421773 / 134217728), .fin (5033165 / 33554432),
          .fin (13421773 / 67108864)] ∧
    (loadTimestamps threeFrames
      [.three 0 (.fin 0) (.fin 300000000000000000000000000000000000000),
        .two 1 (.fin (1 / 10)),
        .three 2 (.fin (2 / 10)) (.fin 300000000000000000000000000000000000000)]).exposures
      = [.fin 300000000549775575777803994281145270272, .posInf,
          .fin 300000000549775575777803994281145270272] := by
  decide!

/-- C8 (amended): in an accepted metadata list, the final exposure at an index
`i` whose parsed exposure is `0` is the `float` mean `sum/num` of the loop's
contributors, one or two of them: the exposure at `i-1` as the loop left it
(repaired, if it was `0`) and the parsed exposure at `i+1`, each counted when
it exists and is `> 0`. -/
theorem repair_value (r : ImageFolderReader) (lines : List ScanLine)
    (ht : r.timestamps = []) (he : r.exposures = [])
    (hlen : (parsedStamps lines).length = r.files.length)
    (hacc : (loadTimestamps r lines).exposures ≠ [])
    (i : Nat) (hi : i < r.files.length)
    (h0 : (parsedExposures lines).getD i (.fin 0) = .fin 0) :
    (loadTimestamps r lines).exposures.getD i (.fin 0) =
      floatMean (loopContributors (loadTimestamps r lines).exposures (parsedExposures lines) i) ∧
    1 ≤ (loopContributors (loadTimestamps r lines).exposures (parsedExposures lines) i).length ∧
    (loopContributors (loadTimestamps r lines).exposures (parsedExposures lines) i).length
      ≤ 2 := by
  obtain ⟨_, hex⟩ := loadTimestamps_of_match r lines ht he hlen
  have hnz : FloatVal.fin 0 ∉ (repairLoop (parsedExposures lines) true).1 := by
    intro hmem
    rw [if_pos hmem] at hex
    exact hacc hex
  rw [if_neg hnz] at hex
  have hi' : i < (parsedExposures lines).length := by
    rw [← parsed_lengths, hlen]; exact hi
  have hval := repairLoop_getD (parsedExposures lines) true i hi'
  rw [if_pos h0] at hval
  have hne : loopContributors (repairLoop (parsedExposures lines) true).1
      (parsedExposures lines) i ≠ [] := by
    intro hnil
    rw [if_pos hnil] at hval
    have hi2 : i < (repairLoop (parsedExposures lines) true).1.length := by
      rw [repairLoop_length]; exact hi'
    rw [List.getD_eq_getElem _ _ hi2] at hval
    exact hnz (hval ▸ List.getElem_mem _)
  rw [if_neg hne] at hval
  rw [hex]
  exact ⟨hval, List.length_pos.mpr hne, loopContributors_length _ _ _⟩

/-- C8 (amended) on the list `[2, 0, 0, 4]`: entry 2 is `(2 + 4) / 2 = 3`,
from the repaired entry 1 and the parsed entry 3. -/
theorem repair_value_witness :
    ((loadTimestamps fourFrames
        [.three 0 (.fin 0) (.fin 2), .two 1 (.fin (1 / 10)), .two 2 (.fin (2 / 10)),
        .three 3 (.fin (3 / 10)) (.fin 4)]).exposures.getD 2 (.fin 0)
      = floatMean (loopContributors
        (loadTimestamps fourFrames
          [.three 0 (.fin 0) (.fin 2), .two 1 (.fin (1 / 10)), .two 2 (.fin (2 / 10)),
        .three 3 (.fin (3 / 10)) (.fin 4)]).exposures
        (parsedExposures
          [.three 0 (.fin 0) (.fin 2), .two 1 (.fin (1 / 10)), .two 2 (.fin (2 / 10)),
        .three 3 (.fin (3 / 10)) (.fin 4)]) 2) ∧
    1 ≤ (loopContributors
        (loadTimestamps fourFrames
          [.three 0 (.fin 0) (.fin 2), .two 1 (.fin (1 / 10)), .two 2 (.fin (2 / 10)),
        .three 3 (.fin (3 / 10)) (.fin 4)]).exposures
        (parsedExposures
          [.three 0 (.fin 0) (.fin 2), .two 1 (.fin (1 / 10)), .two 2 (.fin (2 / 10)),
        .three 3 (.fin (3 / 10)) (.fin 4)]) 2).length ∧
    (loopContributors
        (loadTimestamps fourFrames
          [.three 0 (.fin 0) (.fin 2), .two 1 (.fin (1 / 10)), .two 2 (.fin (2 / 10)),
        .three 3 (.fin (3 / 10)) (.fin 4)]).exposures
        (parsedExposures
          [.three 0 (.fin 0) (.fin 2), .two 1 (.fin (1 / 10)), .two 2 (.fin (2 / 10)),
        .three 3 (.fin (3 / 10)) (.fin 4)]) 2).length
      ≤ 2) ∧
    loopContributors
        (loadTimestamps fourFrames
          [.three 0 (.fin 0) (.fin 2), .two 1 (.fin (1 / 10)), .two 2 (.fin (2 / 10)),
        .three 3 (.fin (3 / 10)) (.fin 4)]).exposures
        (parsedExposures
          [.three 0 (.fin 0) (.fin 2), .two 1 (.fin (1 / 10)), .two 2 (.fin (2 / 10)),
        .three 3 (.fin (3 / 10)) (.fin 4)]) 2 = [.fin 2, .fin 4] ∧
    (loadTimestamps fourFrames
        [.three 0 (.fin 0) (.fin 2), .two 1 (.fin (1 / 10)), .two 2 (.fin (2 / 10)),
        .three 3 (.fin (3 / 10)) (.fin 4)]).exposures.getD 2 (.fin 0) = .fin 3 :=
  ⟨repair_value fourFrames
      [.three 0 (.fin 0) (.fin 2), .two 1 (.fin (1 / 10)), .two 2 (.fin (2 / 10)),
        .three 3 (.fin (3 / 10)) (.fin 4)]
      rfl rfl (by decide) (by decide!) 2 (by decide) (by decide!),
    by decide!, by decide!⟩

/-! ## Enumeration of a directory and of an archive -/

theorem stdSort_perm (l : List StdString) : (stdSort l).Perm l :=
  List.perm_insertionSort _ _

theorem stdSort_sorted (l : List StdString) : (stdSort l).Sorted (· ≤ ·) :=
  List.sorted_insertionSort _ _

/-- Sorting forgets the order in which the names were listed. -/
theorem stdSort_eq_of_perm {l₁ l₂ : List StdString} (h : l₁.Perm l₂) :
    stdSort l₁ = stdSort l₂ :=
  List.eq_of_perm_of_sorted ((stdSort_perm l₁).trans (h.trans (stdSort_perm l₂).symm))
    (stdSort_sorted l₁) (stdSort_sorted l₂)

theorem append_le_append_left (p : StdString) {a b : StdString} (h : a ≤ b) :
    p ++ a ≤ p ++ b := by
  induction p with
  | nil => exact h
  | cons c p ih => exact List.cons_le_cons c ih

theorem zip_foldl_valid (archive : ZipArchive) (acc : List StdString)
    (hv : ∀ e ∈ archive,
      e.name ≠ ".".toList ∧ e.name ≠ "..".toList ∧ e.name.getLast? ≠ some '/') :
    archive.foldl (fun (files : List StdString) (e : ZipEntry) =>
        if e.name = ".".toList ∨ e.name = "..".toList then files
        else if e.name.getLast? = some '/' then files
        else files ++ [e.name]) acc
      = acc ++ archive.map (·.name) := by
  induction archive generalizing acc with
  | nil => simp
  | cons e rest ih =>
    obtain ⟨h1, h2, h3⟩ := hv e (List.mem_cons_self _ _)
    rw [List.foldl_cons, if_neg (by tauto), if_neg h3,
      ih _ (fun e' he' => hv e' (List.mem_cons_of_mem _ he'))]
    simp

theorem getdirTail_valid (dir : StdString) (files : List StdString) (hdir : dir ≠ [])
    (hv : ∀ f ∈ files, f ≠ [] ∧ f.head? ≠ some '/') :
    getdirTail dir files
      = some ((files.length : Int), (stdSort files).map (fun f => withSlash dir ++ f)) := by
  have hv' : ∀ f ∈ stdSort files, f ≠ [] ∧ f.head? ≠ some '/' :=
    fun f hf => hv f ((stdSort_perm files).mem_iff.mp hf)
  unfold getdirTail
  cases hlast : dir.getLast? with
  | none => exact absurd (List.getLast?_eq_none_iff.mp hlast) hdir
  | some last =>
    have hany : (stdSort files).any (fun f => f.isEmpty) = false := by
      rw [List.any_eq_false]
      intro f hf
      simpa [List.isEmpty_iff] using (hv' f hf).1
    have hpre : (if last ≠ '/' then dir ++ "/".toList else dir) = withSlash dir := by
      unfold withSlash
      rw [hlast]
      by_cases hc : last = '/'
      · simp [hc]
      · simp [hc]
    simp only [hany, hpre, Bool.false_eq_true, if_false]
    have hmap : (stdSort files).map (fun f => if f.head? ≠ some '/' then withSlash dir ++ f else f)
        = (stdSort files).map (fun f => withSlash dir ++ f) :=
      List.map_congr_left (fun f hf => if_pos (hv' f hf).2)
    rw [hmap, List.length_map, (stdSort_perm files).length_eq]

/-- C7 (as stated, refuted): the directory `d` holding the one file `a` is
enumerated as `["d/a"]`, the archive holding the one entry `a` as `["a"]`. -/
theorem enumeration_not_identical :
    getdir "d".toList (some [".".toList, "..".toList, "a".toList]) []
      = some (1, ["d/a".toList]) ∧
    getdirWin "d".toList (some ["a".toList]) [] = some (1, ["d/a".toList]) ∧
    zipEnumerate [⟨"a".toList, 1⟩] = ["a".toList] ∧
    (getdir "d".toList (some [".".toList, "..".toList, "a".toList]) []).map (·.2)
      ≠ some (zipEnumerate [⟨"a".toList, 1⟩]) := by
  decide

/-- C7 (amended): for entry names that are non-empty, differ from `.` and `..`
and neither begin nor end with `/`, listed in any order by `readdir` (there
among `.` and `..`), by the directory iterator and by the archive's table of
contents: the archive is enumerated as the sorted names, the directory `dir`
(non-empty) as the same sequence with `dir` and a separating `/` prepended to
every identifier, and both sequences are sorted lexicographically. -/
theorem enumeration_directory_vs_archive (dir : StdString)
    (names listing winListing : List StdString) (archive : ZipArchive)
    (hdir : dir ≠ [])
    (hvalid : ∀ n ∈ names, n ≠ [] ∧ n ≠ ".".toList ∧ n ≠ "..".toList ∧
      n.head? ≠ some '/' ∧ n.getLast? ≠ some '/')
    (hposix : (listing.filter (fun n => n ≠ ".".toList ∧ n ≠ "..".toList)).Perm names)
    (hwin : winListing.Perm names)
    (hzip : (archive.map (·.name)).Perm names) :
    zipEnumerate archive = stdSort names ∧
    getdir dir (some listing) []
      = some ((names.length : Int), (zipEnumerate archive).map (fun f => withSlash dir ++ f)) ∧
    getdirWin dir (some winListing) []
      = some ((names.length : Int), (zipEnumerate archive).map (fun f => withSlash dir ++ f)) ∧
    (zipEnumerate archive).Sorted (· ≤ ·) ∧
    ((zipEnumerate archive).map (fun f => withSlash dir ++ f)).Sorted (· ≤ ·) := by
  have hz : zipEnumerate archive = stdSort names := by
    unfold zipEnumerate
    dsimp only
    rw [zip_foldl_valid archive [] (fun e he => by
      have := hvalid e.name (hzip.mem_iff.mp (List.mem_map_of_mem _ he))
      exact ⟨this.2.1, this.2.2.1, this.2.2.2.2⟩)]
    exact stdSort_eq_of_perm (by simpa using hzip)
  have hsorted : (stdSort names).Sorted (· ≤ ·) := stdSort_sorted names
  refine ⟨hz, ?_, ?_, hz ▸ hsorted, ?_⟩
  · unfold getdir
    simp only [List.nil_append]
    rw [getdirTail_valid dir _ hdir (fun f hf => by
      have := hvalid f (hposix.mem_iff.mp hf)
      exact ⟨this.1, this.2.2.2.1⟩), hz, stdSort_eq_of_perm hposix, hposix.length_eq]
  · have hfilter : winListing.filter (fun name => name ≠ []) = winListing := by
      rw [List.filter_eq_self]
      intro f hf
      simpa using (hvalid f (hwin.mem_iff.mp hf)).1
    unfold getdirWin
    simp only [List.nil_append]
    rw [hfilter, getdirTail_valid dir _ hdir (fun f hf => by
      have := hvalid f (hwin.mem_iff.mp hf)
      exact ⟨this.1, this.2.2.2.1⟩), hz, stdSort_eq_of_perm hwin, hwin.length_eq]
  · rw [hz]
    exact List.Pairwise.map _ (fun a b hab => append_le_append_left _ hab) hsorted

/-- C7 (amended) on the names `a`, `b` in the directory or archive `d`. -/
theorem enumeration_directory_vs_archive_witness :
    zipEnumerate [⟨"b".toList, 2⟩, ⟨"a".toList, 1⟩] = stdSort ["a".toList, "b".toList] ∧
    getdir "d".toList (some ["b".toList, ".".toList, "a".toList, "..".toList]) []
      = some (((["a".toList, "b".toList] : List StdString).length : Int),
          (zipEnumerate [⟨"b".toList, 2⟩, ⟨"a".toList, 1⟩]).map
            (fun f => withSlash "d".toList ++ f)) ∧
    getdirWin "d".toList (some ["b".toList, "a".toList]) []
      = some (((["a".toList, "b".toList] : List StdString).length : Int),
          (zipEnumerate [⟨"b".toList, 2⟩, ⟨"a".toList, 1⟩]).map
            (fun f => withSlash "d".toList ++ f)) ∧
    (zipEnumerate [⟨"b".toList, 2⟩, ⟨"a".toList, 1⟩]).Sorted (· ≤ ·) ∧
    ((zipEnumerate [⟨"b".toList, 2⟩, ⟨"a".toList, 1⟩]).map
      (fun f => withSlash "d".toList ++ f)).Sorted (· ≤ ·) :=
  enumeration_directory_vs_archive "d".toList ["a".toList, "b".toList]
    ["b".toList, ".".toList, "a".toList, "..".toList] ["b".toList, "a".toList]
    [⟨"b".toList, 2⟩, ⟨"a".toList, 1⟩]
    (by decide) (by decide) (by decide) (by decide) (by decide)

end DatasetReader
